import Mathlib

/-!
Verification development for the `formula` repository: a bilingual
(Latin/Cyrillic) formula language with a tokenizer, recursive-descent
parser, AST evaluator and a multi-stage validator.

Shallow embedding conventions:
* Go `float64` is modelled by `ℚ`; every numeric value exercised by the
  claims below is a small integer, on which IEEE double arithmetic is exact.
* Go's mutating lexer/parser state is modelled by explicit state passing;
  Go `error` returns are modelled with `Except String`.
* Loops whose termination is not structural carry an explicit fuel
  argument.  The fuel supplied by the wrappers strictly exceeds the number
  of iterations any input can need, so exhaustion is unreachable; fuel
  keeps every definition kernel-computable.
* Go's `unicode` character classes are modelled on the character ranges
  the program actually distinguishes (ASCII plus the Cyrillic block used
  by the keyword tables).
-/

namespace Formula

/-- A single quote character, used to reproduce the Go error message texts. -/
def sq : String := ⟨[Char.ofNat 39]⟩

/-- Model of Go `unicode.IsSpace` on the whitespace characters the formula
language can meet (ASCII whitespace plus NEL and NBSP). -/
def goIsSpace (c : Char) : Bool :=
  c = ' ' || c = Char.ofNat 9 || c = Char.ofNat 10 || c = Char.ofNat 11 ||
  c = Char.ofNat 12 || c = Char.ofNat 13 || c = Char.ofNat 0x85 || c = Char.ofNat 0xA0

/-- Model of Go `unicode.IsDigit` (the formulas use ASCII digits). -/
def goIsDigit (c : Char) : Bool := c.isDigit

/-- True for the Cyrillic block U+0400..U+04FF; model of
`unicode.In(r, unicode.Cyrillic)` on the characters the keyword tables use. -/
def isCyrillic (c : Char) : Bool := 0x400 ≤ c.toNat && c.toNat ≤ 0x4FF

/-- Model of Go `unicode.IsLetter` restricted to Latin letters and the
Cyrillic block (the letters the grammar distinguishes). -/
def goIsLetter (c : Char) : Bool := c.isAlpha || isCyrillic c

/-- Model of Go `unicode.ToUpper` / `strings.ToUpper` per character, on
ASCII and the Cyrillic block. -/
def goToUpperChar (c : Char) : Char :=
  if 0x61 ≤ c.toNat ∧ c.toNat ≤ 0x7A then Char.ofNat (c.toNat - 32)
  else if 0x430 ≤ c.toNat ∧ c.toNat ≤ 0x44F then Char.ofNat (c.toNat - 32)
  else if c.toNat = 0x451 then Char.ofNat 0x401
  else c

/-- Model of Go `strings.ToUpper` on the modelled character ranges. -/
def goToUpper (s : String) : String := ⟨s.data.map goToUpperChar⟩

/-- Model of Go `unicode.ToLower` / `strings.ToLower` per character. -/
def goToLowerChar (c : Char) : Char :=
  if 0x41 ≤ c.toNat ∧ c.toNat ≤ 0x5A then Char.ofNat (c.toNat + 32)
  else if 0x410 ≤ c.toNat ∧ c.toNat ≤ 0x42F then Char.ofNat (c.toNat + 32)
  else if c.toNat = 0x401 then Char.ofNat 0x451
  else c

/-- Model of Go `strings.ToLower` on the modelled character ranges. -/
def goToLower (s : String) : String := ⟨s.data.map goToLowerChar⟩

/-- Model of Go `strings.TrimSpace`. -/
def goTrimSpace (s : String) : String :=
  ⟨((s.data.dropWhile goIsSpace).reverse.dropWhile goIsSpace).reverse⟩

/-- `parser.go` `normalizeSpaces`, lines 69-71: a space is kept exactly when
its immediate neighbours are letter/digit, digit/letter or letter/letter. -/
def keepSpacePair (prev next : Char) : Bool :=
  (goIsLetter prev && goIsDigit next) ||
  (goIsDigit prev && goIsLetter next) ||
  (goIsLetter prev && goIsLetter next)

/-- `parser.go` `normalizeSpaces` (lines 56-83), with the original previous
rune threaded explicitly instead of indexing: a space at position `i` is kept
iff `0 < i < len-1` and `keepSpacePair runes[i-1] runes[i+1]`; every other
rune is kept unconditionally. -/
def normalizeSpacesAux : Option Char → List Char → List Char
  | _, [] => []
  | prev, c :: rest =>
    if c = ' ' then
      match prev, rest with
      | some p, n :: _ =>
        if keepSpacePair p n then c :: normalizeSpacesAux (some c) rest
        else normalizeSpacesAux (some c) rest
      | _, _ => normalizeSpacesAux (some c) rest
    else c :: normalizeSpacesAux (some c) rest

/-- `parser.go` `normalizeSpaces`. -/
def normalizeSpaces (s : String) : String := ⟨normalizeSpacesAux none s.data⟩

/-- `parser.go` `NewLexer` preprocessing (lines 43-53): trim, then
normalize spaces; the lexer then works on the rune slice. -/
def cleanRunes (input : String) : List Char := (normalizeSpaces (goTrimSpace input)).data

/-- `parser.go` token types (lines 13-27). -/
inductive TokenType where
  | number
  | var
  | operator
  | parenOpen
  | parenClose
  | comma
  | function
  | eof
  | tThen
  | tIf
  | tElse
  | tOr
  | tAnd
deriving DecidableEq, Repr

/-- `parser.go` `Token` (lines 30-34). -/
structure Token where
  type : TokenType
  value : String
  pos : Nat
deriving DecidableEq, Repr

/-- `parser.go` `readNumber` (lines 127-133): digits and dots from `pos`. -/
def readNumber (rs : List Char) (pos : Nat) : Token × Nat :=
  let chars := (rs.drop pos).takeWhile (fun c => goIsDigit c || c = '.')
  (⟨.number, ⟨chars⟩, pos⟩, pos + chars.length)

/-- The bilingual keyword classification in `parser.go` `readIdentifier`
(lines 146-171): Russian table then English table on the upper-cased run. -/
def keywordToken (upper : String) : Option TokenType :=
  if upper = "ЕСЛИ" then some .tIf
  else if upper = "ТОГДА" then some .tThen
  else if upper = "ИНАЧЕ" then some .tElse
  else if upper = "ИЛИ" then some .tOr
  else if upper = "И" then some .tAnd
  else if upper = "IF" then some .tIf
  else if upper = "THEN" then some .tThen
  else if upper = "ELSE" then some .tElse
  else if upper = "OR" then some .tOr
  else if upper = "AND" then some .tAnd
  else none

/-- `parser.go` `readIdentifier` (lines 135-184): letters/underscores run,
keyword lookup on the upper-cased text, then non-consuming lookahead past
whitespace for `(` to classify Function vs Variable. -/
def readIdentifier (rs : List Char) (pos : Nat) : Token × Nat :=
  let chars := (rs.drop pos).takeWhile (fun c => goIsLetter c || c = '_')
  let value : String := ⟨chars⟩
  let newPos := pos + chars.length
  match keywordToken (goToUpper value) with
  | some t => (⟨t, value, pos⟩, newPos)
  | none =>
    let ws := ((rs.drop newPos).takeWhile goIsSpace).length
    match (rs.drop (newPos + ws)).head? with
    | some c => if c = '(' then (⟨.function, value, pos⟩, newPos) else (⟨.var, value, pos⟩, newPos)
    | none => (⟨.var, value, pos⟩, newPos)

/-- `parser.go` `readOperator` (lines 186-201): the two-character compounds
`>= <= == !=` are preferred, else a single-character operator. -/
def readOperator (rs : List Char) (pos : Nat) : Token × Nat :=
  match rs.drop pos with
  | a :: b :: _ =>
    let two : String := ⟨[a, b]⟩
    if two = ">=" ∨ two = "<=" ∨ two = "==" ∨ two = "!=" then
      (⟨.operator, two, pos⟩, pos + 2)
    else (⟨.operator, ⟨[a]⟩, pos⟩, pos + 1)
  | a :: [] => (⟨.operator, ⟨[a]⟩, pos⟩, pos + 1)
  | [] => (⟨.eof, "", pos⟩, pos)

/-- `parser.go` `Lexer.NextToken` (lines 85-125), fueled: skip whitespace,
end-of-input token at exhaustion, digits → number, letters → identifier,
the eight operator start characters, parens and comma, and silent skipping
of any other character.  The wrapper `nextToken` supplies fuel exceeding
the remaining input length, so the fuel-exhaustion branch is unreachable. -/
def nextTokenF : Nat → List Char → Nat → Token × Nat
  | 0, _, pos => (⟨.eof, "", pos⟩, pos)
  | fuel + 1, rs, pos =>
    match rs.drop pos with
    | [] => (⟨.eof, "", pos⟩, pos)
    | c :: _ =>
      if goIsSpace c then nextTokenF fuel rs (pos + 1)
      else if goIsDigit c then readNumber rs pos
      else if goIsLetter c then readIdentifier rs pos
      else if c = '+' ∨ c = '-' ∨ c = '*' ∨ c = '/' ∨ c = '>' ∨ c = '<' ∨ c = '=' ∨ c = '!' then
        readOperator rs pos
      else if c = '(' then (⟨.parenOpen, "(", pos⟩, pos + 1)
      else if c = ')' then (⟨.parenClose, ")", pos⟩, pos + 1)
      else if c = ',' then (⟨.comma, ",", pos⟩, pos + 1)
      else nextTokenF fuel rs (pos + 1)

/-- `parser.go` `Lexer.NextToken` on the lexer state `(runes, pos)`. -/
def nextToken (rs : List Char) (pos : Nat) : Token × Nat :=
  nextTokenF (rs.length + 1) rs pos

/-- All tokens of a formula up to (and excluding) the end-of-input token,
as the validator's tokenization loop (`validator.go` lines 306-320) and the
example drivers consume them. -/
def tokensAux : Nat → List Char → Nat → List Token
  | 0, _, _ => []
  | fuel + 1, rs, pos =>
    let (tok, p) := nextToken rs pos
    if tok.type = .eof then [] else tok :: tokensAux fuel rs p

/-- Tokenize a formula completely (after the `NewLexer` preprocessing). -/
def tokenizeAll (formula : String) : List Token :=
  let rs := cleanRunes formula
  tokensAux (rs.length + 1) rs 0

/-! ## AST and evaluation (`ast.go`) -/

/-- `ast.go` AST node variants (LiteralNode, VariableNode, OperationNode,
ComparisonNode, LogicalNode, ConditionalNode, UnaryNode, FunctionNode).
Go `float64` values are modelled by `ℚ`. -/
inductive ASTNode where
  | literal (value : ℚ)
  | var (name : String)
  | operation (operator : String) (left right : ASTNode)
  | comparison (operator : String) (left right : ASTNode)
  | logical (operator : String) (left right : ASTNode)
  | conditional (condition thenBranch : ASTNode) (elseBranch : Option ASTNode)
  | unary (operator : String) (operand : ASTNode)
  | function (name : String) (args : List ASTNode)
deriving Repr

/-- `ast.go` `Context` (lines 34-37): Go maps modelled as association
lists with first-match lookup. -/
structure Context where
  Variables : List (String × ℚ)
  Functions : List (String × (List ℚ → Except String ℚ))

/-- `math.Pow` modelled on integer exponents (the only exponents the
claims exercise; IEEE `math.Pow` agrees with exact rational
exponentiation there).  A non-integral exponent is outside the model and
returns 0. -/
def goPow (l r : ℚ) : ℚ :=
  if r.den = 1 then (if 0 ≤ r.num then l ^ r.num.toNat else (l ^ (-r.num).toNat)⁻¹)
  else 0

/-- Truncation toward zero, as Go `math.Trunc` on exact rationals. -/
def ratTrunc (q : ℚ) : ℤ := q.num.tdiv (q.den : ℤ)

/-- `math.Mod(x, y) = x - Trunc(x/y)*y` on exact rationals. -/
def goMod (l r : ℚ) : ℚ := l - (ratTrunc (l / r) : ℚ) * r

mutual

/-- `ast.go` `Evaluate` for every node variant:
* LiteralNode (line 44): the value;
* VariableNode (lines 57-62): exact-name context lookup, error if absent
  (the message includes the wrapped `ErrNotFound` text);
* OperationNode (lines 75-108): both operands eagerly, then
  `+ - * / ^ ** %` with division/modulo-by-zero errors;
* ComparisonNode (lines 121-154): both operands, comparator result encoded
  as 1 or 0;
* LogicalNode (lines 167-207): OR/AND with short-circuit on the left value;
* ConditionalNode (lines 220-233): nonzero condition selects Then, else
  the Else branch when present, else 0;
* UnaryNode (lines 245-259): minus/plus;
* FunctionNode (lines 271-287): function lookup, eager left-to-right
  argument evaluation, then the call. -/
def Evaluate : ASTNode → Context → Except String ℚ
  | .literal v, _ => .ok v
  | .var name, ctx =>
    match ctx.Variables.lookup name with
    | some v => .ok v
    | none => .error ("variable " ++ sq ++ name ++ sq ++ " not found entity not found")
  | .operation op l r, ctx =>
    match Evaluate l ctx with
    | .error e => .error e
    | .ok left =>
      match Evaluate r ctx with
      | .error e => .error e
      | .ok right =>
        if op = "+" then .ok (left + right)
        else if op = "-" then .ok (left - right)
        else if op = "*" then .ok (left * right)
        else if op = "/" then
          if right = 0 then .error "division by zero" else .ok (left / right)
        else if op = "^" ∨ op = "**" then .ok (goPow left right)
        else if op = "%" then
          if right = 0 then .error "modulo by zero" else .ok (goMod left right)
        else .error ("unknown operator: " ++ op)
  | .comparison op l r, ctx =>
    match Evaluate l ctx with
    | .error e => .error e
    | .ok left =>
      match Evaluate r ctx with
      | .error e => .error e
      | .ok right =>
        if op = "=" then .ok (if left = right then 1 else 0)
        else if op = "!=" then .ok (if left ≠ right then 1 else 0)
        else if op = ">" then .ok (if left > right then 1 else 0)
        else if op = "<" then .ok (if left < right then 1 else 0)
        else if op = ">=" then .ok (if left ≥ right then 1 else 0)
        else if op = "<=" then .ok (if left ≤ right then 1 else 0)
        else .error ("unknown comparison operator: " ++ op)
  | .logical op l r, ctx =>
    match Evaluate l ctx with
    | .error e => .error e
    | .ok left =>
      if op = "OR" then
        if left ≠ 0 then .ok 1
        else
          match Evaluate r ctx with
          | .error e => .error e
          | .ok right => if right ≠ 0 then .ok 1 else .ok 0
      else if op = "AND" then
        if left = 0 then .ok 0
        else
          match Evaluate r ctx with
          | .error e => .error e
          | .ok right => if right ≠ 0 then .ok 1 else .ok 0
      else .error ("unknown logical operator: " ++ op)
  | .conditional cond thenB elseB, ctx =>
    match Evaluate cond ctx with
    | .error e => .error e
    | .ok c =>
      if c ≠ 0 then Evaluate thenB ctx
      else
        match elseB with
        | some e => Evaluate e ctx
        | none => .ok 0
  | .unary op operand, ctx =>
    match Evaluate operand ctx with
    | .error e => .error e
    | .ok v =>
      if op = "-" then .ok (-v)
      else if op = "+" then .ok v
      else .error ("unknown unary operator: " ++ op)
  | .function name args, ctx =>
    match ctx.Functions.lookup name with
    | none => .error ("function " ++ sq ++ name ++ sq ++ " not found")
    | some f =>
      match evalArgs args ctx with
      | .error e => .error e
      | .ok vals => f vals

/-- `ast.go` `FunctionNode.Evaluate` argument loop (lines 277-284):
left-to-right, failing on the first error. -/
def evalArgs : List ASTNode → Context → Except String (List ℚ)
  | [], _ => .ok []
  | a :: rest, ctx =>
    match Evaluate a ctx with
    | .error e => .error e
    | .ok v =>
      match evalArgs rest ctx with
      | .error e => .error e
      | .ok vs => .ok (v :: vs)

end

/-! ## Parser (`parser.go`) -/

/-- `parser.go` `Parser` state (lines 206-209): the lexer state plus the
one-token lookahead. -/
structure ParserState where
  runes : List Char
  pos : Nat
  current : Token
deriving Repr

/-- `parser.go` `Parser.nextToken` (lines 218-220). -/
def ParserState.advance (st : ParserState) : ParserState :=
  let (tok, p) := nextToken st.runes st.pos
  { st with pos := p, current := tok }

/-- `parser.go` `NewParser` (lines 211-216): lex the preprocessed input
and load the first token. -/
def NewParserState (input : String) : ParserState :=
  ParserState.advance { runes := cleanRunes input, pos := 0, current := ⟨.eof, "", 0⟩ }

/-- `parser.go` `isComparisonOp` (lines 518-525). -/
def isComparisonOp (op : String) : Bool :=
  op = ">" || op = "<" || op = ">=" || op = "<=" || op = "=" || op = "!="

/-- Helper: a decimal digit run as a natural number. -/
def digitsToNat (cs : List Char) : ℕ :=
  cs.foldl (fun a c => 10 * a + (c.toNat - 48)) 0

/-- Model of `strconv.ParseFloat` on the token texts `readNumber` can
produce (a nonempty run of digits and dots): at most one dot and digits
everywhere else parse to the exact decimal value, anything else fails.
(IEEE rounding is exact on the values the claims exercise.) -/
def parseFloatQ (s : String) : Option ℚ :=
  let cs := s.data
  let intPart := cs.takeWhile (· ≠ '.')
  let rest := cs.dropWhile (· ≠ '.')
  let fracPart := rest.drop 1
  if (cs.filter (· = '.')).length ≤ 1 ∧ intPart ≠ [] ∧
      intPart.all Char.isDigit ∧ fracPart.all Char.isDigit then
    some ((digitsToNat intPart : ℚ) + (digitsToNat fracPart : ℚ) / (10 : ℚ) ^ fracPart.length)
  else none

mutual

/-- `parser.go` `Parser.parseExpression` (lines 227-233). -/
def parseExpressionF : Nat → ParserState → Except String (ASTNode × ParserState)
  | 0, _ => .error "fuel exhausted"
  | fuel + 1, st =>
    if st.current.type = .tIf then parseIfStatementF fuel st
    else parseLogicalOrF fuel st

/-- `parser.go` `Parser.parseIfStatement` (lines 236-273). -/
def parseIfStatementF : Nat → ParserState → Except String (ASTNode × ParserState)
  | 0, _ => .error "fuel exhausted"
  | fuel + 1, st =>
    if st.current.type = .tIf then
      match parseLogicalOrF fuel st.advance with
      | .error e => .error ("error parsing IF condition: " ++ e)
      | .ok (cond, st) =>
        if st.current.type = .tThen then
          match parseLogicalOrF fuel st.advance with
          | .error e => .error ("error parsing IF then branch: " ++ e)
          | .ok (thenN, st) =>
            if st.current.type = .tElse then
              match parseLogicalOrF fuel st.advance with
              | .error e => .error ("error parsing IF else branch: " ++ e)
              | .ok (elseN, st) => .ok (.conditional cond thenN (some elseN), st)
            else .ok (.conditional cond thenN none, st)
        else .error "expected THEN/ТОГДА after IF condition"
    else .error "expected IF/ЕСЛИ"

/-- `parser.go` `Parser.parseLogicalOr` (lines 276-298). -/
def parseLogicalOrF : Nat → ParserState → Except String (ASTNode × ParserState)
  | 0, _ => .error "fuel exhausted"
  | fuel + 1, st =>
    match parseLogicalAndF fuel st with
    | .error e => .error e
    | .ok (left, st) => parseLogicalOrLoopF fuel left st

/-- The `for current = OR` loop of `parseLogicalOr`. -/
def parseLogicalOrLoopF : Nat → ASTNode → ParserState → Except String (ASTNode × ParserState)
  | 0, _, _ => .error "fuel exhausted"
  | fuel + 1, left, st =>
    if st.current.type = .tOr then
      match parseLogicalAndF fuel st.advance with
      | .error e => .error e
      | .ok (right, st) => parseLogicalOrLoopF fuel (.logical "OR" left right) st
    else .ok (left, st)

/-- `parser.go` `Parser.parseLogicalAnd` (lines 301-323). -/
def parseLogicalAndF : Nat → ParserState → Except String (ASTNode × ParserState)
  | 0, _ => .error "fuel exhausted"
  | fuel + 1, st =>
    match parseComparisonF fuel st with
    | .error e => .error e
    | .ok (left, st) => parseLogicalAndLoopF fuel left st

/-- The `for current = AND` loop of `parseLogicalAnd`. -/
def parseLogicalAndLoopF : Nat → ASTNode → ParserState → Except String (ASTNode × ParserState)
  | 0, _, _ => .error "fuel exhausted"
  | fuel + 1, left, st =>
    if st.current.type = .tAnd then
      match parseComparisonF fuel st.advance with
      | .error e => .error e
      | .ok (right, st) => parseLogicalAndLoopF fuel (.logical "AND" left right) st
    else .ok (left, st)

/-- `parser.go` `Parser.parseComparison` (lines 326-349). -/
def parseComparisonF : Nat → ParserState → Except String (ASTNode × ParserState)
  | 0, _ => .error "fuel exhausted"
  | fuel + 1, st =>
    match parseAddSubF fuel st with
    | .error e => .error e
    | .ok (left, st) => parseComparisonLoopF fuel left st

/-- The comparison-operator loop of `parseComparison`, building a
left-leaning chain. -/
def parseComparisonLoopF : Nat → ASTNode → ParserState → Except String (ASTNode × ParserState)
  | 0, _, _ => .error "fuel exhausted"
  | fuel + 1, left, st =>
    if st.current.type = .operator ∧ isComparisonOp st.current.value then
      let op := st.current.value
      match parseAddSubF fuel st.advance with
      | .error e => .error e
      | .ok (right, st) => parseComparisonLoopF fuel (.comparison op left right) st
    else .ok (left, st)

/-- `parser.go` `Parser.parseAddSub` (lines 352-375). -/
def parseAddSubF : Nat → ParserState → Except String (ASTNode × ParserState)
  | 0, _ => .error "fuel exhausted"
  | fuel + 1, st =>
    match parseMulDivF fuel st with
    | .error e => .error e
    | .ok (left, st) => parseAddSubLoopF fuel left st

/-- The `+`/`-` loop of `parseAddSub`. -/
def parseAddSubLoopF : Nat → ASTNode → ParserState → Except String (ASTNode × ParserState)
  | 0, _, _ => .error "fuel exhausted"
  | fuel + 1, left, st =>
    if st.current.type = .operator ∧ (st.current.value = "+" ∨ st.current.value = "-") then
      let op := st.current.value
      match parseMulDivF fuel st.advance with
      | .error e => .error e
      | .ok (right, st) => parseAddSubLoopF fuel (.operation op left right) st
    else .ok (left, st)

/-- `parser.go` `Parser.parseMulDiv` (lines 378-401): only `*` and `/`. -/
def parseMulDivF : Nat → ParserState → Except String (ASTNode × ParserState)
  | 0, _ => .error "fuel exhausted"
  | fuel + 1, st =>
    match parseFactorF fuel st with
    | .error e => .error e
    | .ok (left, st) => parseMulDivLoopF fuel left st

/-- The `*`/`/` loop of `parseMulDiv`. -/
def parseMulDivLoopF : Nat → ASTNode → ParserState → Except String (ASTNode × ParserState)
  | 0, _, _ => .error "fuel exhausted"
  | fuel + 1, left, st =>
    if st.current.type = .operator ∧ (st.current.value = "*" ∨ st.current.value = "/") then
      let op := st.current.value
      match parseFactorF fuel st.advance with
      | .error e => .error e
      | .ok (right, st) => parseMulDivLoopF fuel (.operation op left right) st
    else .ok (left, st)

/-- `parser.go` `Parser.parseFactor` (lines 404-456). -/
def parseFactorF : Nat → ParserState → Except String (ASTNode × ParserState)
  | 0, _ => .error "fuel exhausted"
  | fuel + 1, st =>
    match st.current.type with
    | .number =>
      match parseFloatQ st.current.value with
      | some v => .ok (.literal v, st.advance)
      | none => .error ("invalid number: " ++ st.current.value)
    | .var => .ok (.var st.current.value, st.advance)
    | .function => parseFunctionF fuel st
    | .operator =>
      if st.current.value = "+" ∨ st.current.value = "-" then
        let op := st.current.value
        match parseFactorF fuel st.advance with
        | .error e => .error e
        | .ok (operand, st) => .ok (.unary op operand, st)
      else .error ("unexpected operator: " ++ st.current.value)
    | .parenOpen =>
      match parseExpressionF fuel st.advance with
      | .error e => .error e
      | .ok (node, st) =>
        if st.current.type = .parenClose then .ok (node, st.advance)
        else .error ("expected " ++ sq ++ ")" ++ sq ++ " but got " ++ st.current.value)
    | _ => .error ("unexpected token: " ++ st.current.value)

/-- `parser.go` `Parser.parseFunction` (lines 459-475): only `IF`/`ЕСЛИ`
is a recognized function name; anything else is a parse error. -/
def parseFunctionF : Nat → ParserState → Except String (ASTNode × ParserState)
  | 0, _ => .error "fuel exhausted"
  | fuel + 1, st =>
    let funcName := st.current.value
    let st := st.advance
    if st.current.type = .parenOpen then
      let st := st.advance
      if goToUpper funcName = "IF" ∨ goToUpper funcName = "ЕСЛИ" then
        parseIfFunctionF fuel st
      else .error ("unknown function: " ++ funcName)
    else .error ("expected " ++ sq ++ "(" ++ sq ++ " after function name")

/-- `parser.go` `Parser.parseIfFunction` (lines 478-515). -/
def parseIfFunctionF : Nat → ParserState → Except String (ASTNode × ParserState)
  | 0, _ => .error "fuel exhausted"
  | fuel + 1, st =>
    match parseLogicalOrF fuel st with
    | .error e => .error ("error parsing IF condition: " ++ e)
    | .ok (cond, st) =>
      if st.current.type = .comma then
        match parseLogicalOrF fuel st.advance with
        | .error e => .error ("error parsing IF then branch: " ++ e)
        | .ok (thenN, st) =>
          let next : Except String (Option ASTNode × ParserState) :=
            if st.current.type = .comma then
              match parseLogicalOrF fuel st.advance with
              | .error e => .error ("error parsing IF else branch: " ++ e)
              | .ok (elseN, st) => .ok (some elseN, st)
            else .ok (none, st)
          match next with
          | .error e => .error e
          | .ok (elseN, st) =>
            if st.current.type = .parenClose then
              .ok (.conditional cond thenN elseN, st.advance)
            else .error ("expected " ++ sq ++ ")" ++ sq ++ " to close IF function")
      else .error ("expected " ++ sq ++ "," ++ sq ++ " after IF condition")

end

/-- Fuel bound for the recursive-descent functions: between any two token
consumptions the parser makes a bounded number of nested calls, so this
bound strictly dominates the call depth on any input. -/
def parseFuel (rs : List Char) : Nat := 32 * (rs.length + 2)

/-- `parser.go` `Parser.Parse` (lines 222-233): parse one expression and
return its AST, without requiring the input to be fully consumed. -/
def Parse (st : ParserState) : Except String ASTNode :=
  (parseExpressionF (parseFuel st.runes) st).map Prod.fst

/-- `parser.go` `SimpleFormulaParser.ParseString` (lines 535-544). -/
def ParseString (formula : String) : Except String ASTNode :=
  let f := goTrimSpace formula
  if f = "" then .error "empty formula"
  else Parse (NewParserState f)

/-- Parse a formula and evaluate it in a context (the composition the
spec's end-to-end examples use). -/
def ParseStringEval (formula : String) (ctx : Context) : Except String ℚ :=
  match ParseString formula with
  | .error e => .error e
  | .ok ast => Evaluate ast ctx

/-- The empty evaluation context. -/
def ctx0 : Context := ⟨[], []⟩

/-! ## Validator (`validator.go`) -/

/-- `validator.go` `ValidationError` (lines 11-15).  Go's zero value for an
omitted `Position` field is `0`, reproduced here. -/
structure ValidationError where
  Message : String
  Position : Int
  Code : String
deriving DecidableEq, Repr

/-- `validator.go` `ValidationResult` (lines 25-29). -/
structure ValidationResult where
  IsValid : Bool
  Errors : List ValidationError
  Warnings : List String
deriving DecidableEq, Repr

/-- Byte length of a string, as Go `len(string)`. -/
def utf8Length (s : String) : Nat := s.data.foldl (fun a c => a + c.utf8Size) 0

/-- The final byte of a string's UTF-8 encoding, as Go `s[len(s)-1]`
(the last byte of a multi-byte rune is `0x80 + (codepoint % 0x40)`). -/
def lastUtf8Byte (s : String) : Option Nat :=
  s.data.getLast?.map fun c => if c.toNat < 128 then c.toNat else 128 + c.toNat % 64

/-- `validator.go` `allowedOperators` table (lines 40-44). -/
def allowedOperator (r : Char) : Bool :=
  r = '+' || r = '-' || r = '*' || r = '/' || r = '=' || r = '!' || r = '>' || r = '<' ||
  r = '(' || r = ')' || r = ',' || r = '.'

/-- `validator.go` `keywords` table (lines 45-52). -/
def validatorKeywords : List String :=
  ["ЕСЛИ", "ИЛИ", "И", "ТОГДА", "ИНАЧЕ", "IF", "THEN", "ELSE", "OR", "AND"]

/-- Membership in the validator keyword table. -/
def isValidatorKeyword (s : String) : Bool := validatorKeywords.contains s

/-- `validator.go` `validateBasicStructure` (lines 110-128). -/
def validateBasicStructure (formula : String) : Option ValidationError :=
  if (goTrimSpace formula).data = [] then
    some ⟨"формула не может быть пустой", 0, "EMPTY_FORMULA"⟩
  else if 1000 < utf8Length (goTrimSpace formula) then
    some ⟨"формула слишком длинная (максимум 1000 символов)", 0, "FORMULA_TOO_LONG"⟩
  else none

/-- `validator.go` `isValidCharacter` (lines 149-182): digits, whitespace,
the operator table, underscore, Latin letters, and (provisionally) any
Cyrillic rune. -/
def isValidCharacter (r : Char) : Bool :=
  goIsDigit r || goIsSpace r || allowedOperator r || r = '_' ||
  (('a' ≤ r && r ≤ 'z') || ('A' ≤ r && r ≤ 'Z')) || isCyrillic r

/-- `validator.go` `validateCharacters` loop (lines 131-146): one
`INVALID_CHARACTER` error per offending rune, at its rune index. -/
def validateCharsAux : List Char → Nat → List ValidationError
  | [], _ => []
  | r :: rest, i =>
    (if isValidCharacter r then []
     else [⟨"недопустимый символ " ++ sq ++ (⟨[r]⟩ : String) ++ sq, (i : Int), "INVALID_CHARACTER"⟩]) ++
    validateCharsAux rest (i + 1)

/-- `validator.go` `validateCharacters`. -/
def validateCharacters (formula : String) : List ValidationError :=
  validateCharsAux formula.data 0

/-- `validator.go` `extractCyrillicWords` scan (lines 209-236), fueled:
maximal runs starting with a Cyrillic rune and continuing over Cyrillic
runes and underscores, with their rune-index start positions. -/
def cyrOccsAux : Nat → List Char → Nat → List (String × Nat)
  | 0, _, _ => []
  | _ + 1, [], _ => []
  | fuel + 1, c :: rest, i =>
    if isCyrillic c then
      let run := (c :: rest).takeWhile (fun x => isCyrillic x || x = '_')
      (⟨run⟩, i) :: cyrOccsAux fuel ((c :: rest).drop run.length) (i + run.length)
    else cyrOccsAux fuel rest (i + 1)

/-- Accumulate one occurrence into the word table. -/
def addOcc (acc : List (String × List Nat)) (w : String) (p : Nat) : List (String × List Nat) :=
  match acc with
  | [] => [(w, [p])]
  | (w0, ps) :: rest =>
    if w0 = w then (w0, ps ++ [p]) :: rest else (w0, ps) :: addOcc rest w p

/-- The `words` map of `extractCyrillicWords`, in first-occurrence order
(Go iterates the map in unspecified order; no claim depends on the order). -/
def groupOccs (occs : List (String × Nat)) : List (String × List Nat) :=
  occs.foldl (fun acc wp => addOcc acc wp.1 wp.2) []

/-- `validator.go` `validateCyrillicUsage` (lines 185-206). -/
def validateCyrillicUsage (formula : String) : List ValidationError :=
  let rs := formula.data
  (groupOccs (cyrOccsAux (rs.length + 1) rs 0)).flatMap fun wp =>
    if isValidatorKeyword (goToUpper wp.1) then []
    else wp.2.map fun pos =>
      ⟨"кириллическое слово " ++ sq ++ wp.1 ++ sq ++
        " не является допустимым ключевым словом. Разрешены только: ЕСЛИ, ИЛИ, И, ТОГДА, ИНАЧЕ",
        (pos : Int), "INVALID_CYRILLIC_WORD"⟩

/-- `validator.go` `validateParentheses` scan (lines 239-267). -/
def parenAux : List Char → Nat → Nat → Option ValidationError
  | [], _, stack =>
    if 0 < stack then
      some ⟨"не хватает " ++ toString stack ++ " закрывающих скобок", 0, "MISSING_CLOSING_PAREN"⟩
    else none
  | c :: rest, i, stack =>
    if c = '(' then parenAux rest (i + 1) (stack + 1)
    else if c = ')' then
      if stack = 0 then some ⟨"лишняя закрывающая скобка", (i : Int), "EXTRA_CLOSING_PAREN"⟩
      else parenAux rest (i + 1) (stack - 1)
    else parenAux rest (i + 1) stack

/-- `validator.go` `validateParentheses`. -/
def validateParentheses (formula : String) : Option ValidationError :=
  parenAux formula.data 0 0

/-- The character class of the `validator.go` operator-sequence pattern
(line 274). -/
def opClassChar (c : Char) : Bool :=
  c = '+' || c = '-' || c = '*' || c = '/' || c = '=' || c = '!' || c = '>' || c = '<'

/-- The non-overlapping maximal matches of the consecutive-operator
pattern with their byte positions (`validator.go` lines 273-283): each
maximal run of three or more operator-class characters yields one error. -/
def opRunsAux : Nat → List Char → Nat → List ValidationError
  | 0, _, _ => []
  | _ + 1, [], _ => []
  | fuel + 1, c :: rest, bytePos =>
    if opClassChar c then
      let run := (c :: rest).takeWhile opClassChar
      (if 3 ≤ run.length then
        [⟨"недопустимая последовательность операторов", (bytePos : Int), "INVALID_OPERATOR_SEQUENCE"⟩]
       else []) ++
      opRunsAux fuel ((c :: rest).drop run.length) (bytePos + run.length)
    else opRunsAux fuel rest (bytePos + c.utf8Size)

/-- `validator.go` lines 286-296: a formula whose trimmed text ends in one
of the bytes `* / = ! > <` may not end in an operator (Go indexes the last
byte of the trimmed string). -/
def endsWithOpErrors (formula : String) : List ValidationError :=
  match lastUtf8Byte (goTrimSpace formula) with
  | some b =>
    if b = 42 ∨ b = 47 ∨ b = 61 ∨ b = 33 ∨ b = 62 ∨ b = 60 then
      [⟨"формула не может заканчиваться оператором", (utf8Length formula : Int) - 1,
        "FORMULA_ENDS_WITH_OPERATOR"⟩]
    else []
  | none => []

/-- `validator.go` `validateOperators` (lines 270-299). -/
def validateOperators (formula : String) : List ValidationError :=
  opRunsAux (formula.data.length + 1) formula.data 0 ++ endsWithOpErrors formula

/-- `validator.go` `validateSyntax` (lines 302-333): tokenize everything
(an empty-valued non-end token would be reported), then run the parser. -/
def validateSyntax (formula : String) : Option ValidationError :=
  match (tokenizeAll formula).find? (fun t => t.value = "") with
  | some t => some ⟨"неожиданный токен в формуле", (t.pos : Int), "UNEXPECTED_TOKEN"⟩
  | none =>
    match Parse (NewParserState formula) with
    | .error e => some ⟨"ошибка синтаксиса: " ++ e, 0, "SYNTAX_ERROR"⟩
    | .ok _ => none

/-- The variable character classes of the long-name warning pattern
(`validator.go` line 353). -/
def isVarStartChar (c : Char) : Bool :=
  ('a' ≤ c && c ≤ 'z') || ('A' ≤ c && c ≤ 'Z') ||
  (0x430 ≤ c.toNat && c.toNat ≤ 0x44F) || c.toNat = 0x451 ||
  (0x410 ≤ c.toNat && c.toNat ≤ 0x42F) || c.toNat = 0x401 || c = '_'

/-- Continuation class of the variable pattern (adds digits). -/
def isVarContChar (c : Char) : Bool := isVarStartChar c || c.isDigit

/-- Maximal matches of the variable pattern, left to right. -/
def varMatchesAux : Nat → List Char → List String
  | 0, _ => []
  | _ + 1, [] => []
  | fuel + 1, c :: rest =>
    if isVarStartChar c then
      let tail := rest.takeWhile isVarContChar
      (⟨c :: tail⟩ : String) :: varMatchesAux fuel (rest.drop tail.length)
    else varMatchesAux fuel rest

/-- `validator.go` `generateWarnings` (lines 336-363). -/
def generateWarnings (formula : String) : List String :=
  let lower := goToLower formula
  let hasRussian := lower.data.any fun c => (0x430 ≤ c.toNat && c.toNat ≤ 0x44F) || c.toNat = 0x451
  let hasEnglish := lower.data.any fun c => 0x61 ≤ c.toNat && c.toNat ≤ 0x7A
  (if hasRussian ∧ hasEnglish then
    ["формула содержит смешение русских и английских ключевых слов"] else []) ++
  (if 5 < (formula.data.filter (· = '(')).length then
    ["формула может быть слишком сложной для понимания"] else []) ++
  ((varMatchesAux (formula.data.length + 1) formula.data).flatMap fun v =>
    if ¬isValidatorKeyword (goToUpper v) ∧ 20 < utf8Length v then
      ["переменная " ++ sq ++ v ++ sq ++ " имеет очень длинное имя"]
    else [])

/-- `validator.go` `ValidateFormula` (lines 57-107): the five independent
stages always run and their errors are collected in stage order; the full
tokenize+parse stage runs only when every prior stage passed; warnings are
always appended. -/
def ValidateFormula (formula : String) : ValidationResult :=
  let e1 := (validateBasicStructure formula).toList
  let e2 := validateCharacters formula
  let e3 := validateCyrillicUsage formula
  let e4 := (validateParentheses formula).toList
  let e5 := validateOperators formula
  let valid5 := e1.isEmpty && e2.isEmpty && e3.isEmpty && e4.isEmpty && e5.isEmpty
  let e6 := if valid5 then (validateSyntax formula).toList else []
  { IsValid := valid5 && e6.isEmpty
    Errors := e1 ++ e2 ++ e3 ++ e4 ++ e5 ++ e6
    Warnings := generateWarnings formula }

/-! ## Helper lemmas -/

/-- A context binding `myFunc` to a function that always returns an error,
as in the spec's short-circuit example. -/
def errCtx : Context := ⟨[], [("myFunc", fun _ => .error "myFunc always fails")]⟩

/-- The AST both the Russian and the English conditional formula of the
bilingual example parse to. -/
def c4AST : ASTNode :=
  .conditional (.comparison ">" (.var "A") (.literal 1)) (.literal 2) (some (.literal 3))

theorem goIsLetter_ne_space {c : Char} (h : goIsLetter c = true) : c ≠ ' ' := by
  intro h'
  rw [h'] at h
  exact absurd h (by decide)

theorem keepSpacePair_space_right (p : Char) : keepSpacePair p ' ' = false := by
  simp [keepSpacePair, show goIsLetter ' ' = false by decide,
    show goIsDigit ' ' = false by decide]

theorem keepSpacePair_space_left (n : Char) : keepSpacePair ' ' n = false := by
  simp [keepSpacePair, show goIsLetter ' ' = false by decide,
    show goIsDigit ' ' = false by decide]

theorem normalizeSpacesAux_all_letters :
    ∀ (A : List Char) (prev : Option Char),
      (∀ c ∈ A, goIsLetter c = true) → normalizeSpacesAux prev A = A := by
  intro A
  induction A with
  | nil => intro prev _; rfl
  | cons c rest ih =>
    intro prev hA
    have hc : goIsLetter c = true := hA c (List.mem_cons_self c rest)
    simp only [normalizeSpacesAux, if_neg (goIsLetter_ne_space hc)]
    rw [ih (some c) (fun d hd => hA d (List.mem_cons_of_mem c hd))]

theorem normalizeSpacesAux_space_cons (rest : List Char) :
    normalizeSpacesAux (some ' ') (' ' :: rest) = normalizeSpacesAux (some ' ') rest := by
  cases rest with
  | nil => rfl
  | cons x xs => simp [normalizeSpacesAux, keepSpacePair_space_left]

theorem normalizeSpacesAux_double_space (p : Char) (xs : List Char) :
    normalizeSpacesAux (some p) (' ' :: ' ' :: xs) = normalizeSpacesAux (some ' ') (' ' :: xs) := by
  simp [normalizeSpacesAux, keepSpacePair_space_right]

theorem normalizeSpacesAux_prev_space :
    ∀ (m : ℕ) (B : List Char), (∀ c ∈ B, goIsLetter c = true) →
      normalizeSpacesAux (some ' ') (List.replicate m ' ' ++ B) = B := by
  intro m
  induction m with
  | zero =>
    intro B hB
    simpa using normalizeSpacesAux_all_letters B (some ' ') hB
  | succ k ih =>
    intro B hB
    rw [List.replicate_succ, List.cons_append, normalizeSpacesAux_space_cons]
    exact ih B hB

theorem normalizeSpacesAux_space_run_after (p : Char) (m : ℕ) (B : List Char)
    (hm : 1 ≤ m) (hB : ∀ c ∈ B, goIsLetter c = true) :
    normalizeSpacesAux (some p) (' ' :: (List.replicate m ' ' ++ B)) = B := by
  cases m with
  | zero => omega
  | succ k =>
    rw [List.replicate_succ, List.cons_append, normalizeSpacesAux_double_space,
      normalizeSpacesAux_space_cons]
    exact normalizeSpacesAux_prev_space k B hB

theorem normalizeSpacesAux_letters_cont :
    ∀ (A : List Char) (T R : List Char),
      (∀ c ∈ A, goIsLetter c = true) →
      (∀ p : Char, normalizeSpacesAux (some p) T = R) →
      ∀ prev, A ≠ [] → normalizeSpacesAux prev (A ++ T) = A ++ R := by
  intro A
  induction A with
  | nil => intro T R _ _ prev h; exact absurd rfl h
  | cons c rest ih =>
    intro T R hA hT prev _
    have hc : goIsLetter c = true := hA c (List.mem_cons_self c rest)
    simp only [List.cons_append, normalizeSpacesAux, if_neg (goIsLetter_ne_space hc)]
    rcases rest with _ | ⟨d, ds⟩
    · simpa using hT c
    · simpa using ih T R (fun x hx => hA x (List.mem_cons_of_mem c hx)) hT (some c)
        (List.cons_ne_nil d ds)

theorem validateCharsAux_codes :
    ∀ (rs : List Char) (i : Nat), ∀ e ∈ validateCharsAux rs i, e.Code = "INVALID_CHARACTER" := by
  intro rs
  induction rs with
  | nil => intro i e he; simp [validateCharsAux] at he
  | cons c rest ih =>
    intro i e he
    simp only [validateCharsAux, List.mem_append] at he
    rcases he with he | he
    · by_cases hc : isValidCharacter c = true
      · simp [hc] at he
      · rw [if_neg hc, List.mem_singleton] at he
        rw [he]
    · exact ih (i + 1) e he

theorem validateCharsAux_mem :
    ∀ (rs : List Char) (i : Nat) (c : Char), c ∈ rs → isValidCharacter c = false →
      ∃ e ∈ validateCharsAux rs i, e.Code = "INVALID_CHARACTER" := by
  intro rs
  induction rs with
  | nil => intro i c hc _; exact absurd hc (List.not_mem_nil c)
  | cons a rest ih =>
    intro i c hc hcv
    rcases List.mem_cons.mp hc with h | h
    · subst h
      refine ⟨⟨"недопустимый символ " ++ sq ++ (⟨[c]⟩ : String) ++ sq, (i : Int),
        "INVALID_CHARACTER"⟩, ?_, rfl⟩
      simp only [validateCharsAux, List.mem_append]
      left
      rw [if_neg (by rw [hcv]; exact Bool.false_ne_true)]
      exact List.mem_singleton.mpr rfl
    · obtain ⟨e, he, hcode⟩ := ih (i + 1) c h hcv
      exact ⟨e, by simp only [validateCharsAux, List.mem_append]; right; exact he, hcode⟩

theorem validateBasicStructure_codes (f : String) (e : ValidationError)
    (h : validateBasicStructure f = some e) :
    e.Code = "EMPTY_FORMULA" ∨ e.Code = "FORMULA_TOO_LONG" := by
  unfold validateBasicStructure at h
  split at h
  · exact Or.inl (by cases h; rfl)
  · split at h
    · exact Or.inr (by cases h; rfl)
    · cases h

theorem validateCyrillicUsage_codes (f : String) (e : ValidationError)
    (h : e ∈ validateCyrillicUsage f) : e.Code = "INVALID_CYRILLIC_WORD" := by
  unfold validateCyrillicUsage at h
  rw [List.mem_flatMap] at h
  obtain ⟨wp, _, hmem⟩ := h
  by_cases hk : isValidatorKeyword (goToUpper wp.1) = true
  · simp [hk] at hmem
  · rw [if_neg hk, List.mem_map] at hmem
    obtain ⟨pos, _, hpe⟩ := hmem
    rw [← hpe]

theorem parenAux_codes :
    ∀ (rs : List Char) (i stack : Nat) (e : ValidationError), parenAux rs i stack = some e →
      e.Code = "EXTRA_CLOSING_PAREN" ∨ e.Code = "MISSING_CLOSING_PAREN" := by
  intro rs
  induction rs with
  | nil =>
    intro i stack e h
    unfold parenAux at h
    split at h
    · exact Or.inr (by cases h; rfl)
    · cases h
  | cons c rest ih =>
    intro i stack e h
    unfold parenAux at h
    split at h
    · exact ih _ _ e h
    · split at h
      · split at h
        · exact Or.inl (by cases h; rfl)
        · exact ih _ _ e h
      · exact ih _ _ e h

theorem opRunsAux_codes :
    ∀ (fuel : Nat) (rs : List Char) (b : Nat), ∀ e ∈ opRunsAux fuel rs b,
      e.Code = "INVALID_OPERATOR_SEQUENCE" := by
  intro fuel
  induction fuel with
  | zero => intro rs b e he; simp [opRunsAux] at he
  | succ k ih =>
    intro rs b e he
    cases rs with
    | nil => simp [opRunsAux] at he
    | cons c rest =>
      unfold opRunsAux at he
      split at he
      · rw [List.mem_append] at he
        rcases he with he | he
        · split at he
          · rw [List.mem_singleton] at he; rw [he]
          · simp at he
        · exact ih _ _ e he
      · exact ih _ _ e he

theorem endsWithOpErrors_codes (f : String) (e : ValidationError)
    (h : e ∈ endsWithOpErrors f) : e.Code = "FORMULA_ENDS_WITH_OPERATOR" := by
  unfold endsWithOpErrors at h
  split at h
  · split at h
    · rw [List.mem_singleton] at h; rw [h]
    · simp at h
  · simp at h

theorem ValidateFormula_gate (f : String) (h : validateCharacters f ≠ []) :
    (ValidateFormula f).IsValid = false ∧
    (ValidateFormula f).Errors =
      (validateBasicStructure f).toList ++ validateCharacters f ++ validateCyrillicUsage f ++
      (validateParentheses f).toList ++ validateOperators f := by
  have h2 : (validateCharacters f).isEmpty = false := by
    cases h' : validateCharacters f with
    | nil => exact absurd h' h
    | cons a l => rfl
  unfold ValidateFormula
  simp [h2]

/-! ## Claim theorems -/

/-- **C1** (counterexample to the claim as stated): the formula text
`"1 OR myFunc()"` does not evaluate to 1 — it does not even parse, because
the text grammar rejects every function name other than IF/ЕСЛИ. -/
theorem c1_text_or_myfunc_is_parse_error :
    ParseString "1 OR myFunc()" = .error "unknown function: myFunc" := rfl

/-- **C1** (amended): Logical evaluation short-circuits exactly as claimed
at the AST level — OR with a nonzero left value returns 1 without touching
the right subtree, AND with a zero left value returns 0 without touching
the right subtree, and otherwise the right operand decides the 0/1 result
or propagates its error; in particular the Logical nodes corresponding to
`1 OR myFunc()` and `0 AND myFunc()`, with `myFunc` bound to an
always-failing function, evaluate to 1 and 0 without error.  (The formula
*texts* of the spec's example do not parse; see the counterexample.) -/
theorem c1_logical_short_circuit :
    (∀ (l r : ASTNode) (ctx : Context) (v : ℚ), Evaluate l ctx = .ok v → v ≠ 0 →
      Evaluate (.logical "OR" l r) ctx = .ok 1) ∧
    (∀ (l r : ASTNode) (ctx : Context) (rv : ℚ), Evaluate l ctx = .ok 0 →
      Evaluate r ctx = .ok rv →
      Evaluate (.logical "OR" l r) ctx = .ok (if rv ≠ 0 then 1 else 0)) ∧
    (∀ (l r : ASTNode) (ctx : Context) (e : String), Evaluate l ctx = .ok 0 →
      Evaluate r ctx = .error e → Evaluate (.logical "OR" l r) ctx = .error e) ∧
    (∀ (l r : ASTNode) (ctx : Context), Evaluate l ctx = .ok 0 →
      Evaluate (.logical "AND" l r) ctx = .ok 0) ∧
    (∀ (l r : ASTNode) (ctx : Context) (v rv : ℚ), Evaluate l ctx = .ok v → v ≠ 0 →
      Evaluate r ctx = .ok rv →
      Evaluate (.logical "AND" l r) ctx = .ok (if rv ≠ 0 then 1 else 0)) ∧
    (∀ (l r : ASTNode) (ctx : Context) (v : ℚ) (e : String), Evaluate l ctx = .ok v → v ≠ 0 →
      Evaluate r ctx = .error e → Evaluate (.logical "AND" l r) ctx = .error e) ∧
    Evaluate (.logical "OR" (.literal 1) (.function "myFunc" [])) errCtx = .ok 1 ∧
    Evaluate (.logical "AND" (.literal 0) (.function "myFunc" [])) errCtx = .ok 0 := by
  refine ⟨?_, ?_, ?_, ?_, ?_, ?_, rfl, rfl⟩
  · intro l r ctx v h hv
    simp only [Evaluate, h]
    simp [hv]
  · intro l r ctx rv h hr
    simp only [Evaluate, h, hr]
    by_cases hrv : rv = 0 <;> simp [hrv]
  · intro l r ctx e h hr
    simp only [Evaluate, h, hr]
    simp
  · intro l r ctx h
    simp only [Evaluate, h]
    simp
  · intro l r ctx v rv h hv hr
    simp only [Evaluate, h, hr]
    by_cases hrv : rv = 0 <;> simp [hv, hrv]
  · intro l r ctx v e h hv hr
    simp only [Evaluate, h, hr]
    simp [hv]

/-- Witness for C1: the short-circuit law applied at a concrete input. -/
theorem c1_witness :
    Evaluate (.logical "OR" (.literal 5) (.var "missing")) ctx0 = .ok 1 :=
  c1_logical_short_circuit.1 (.literal 5) (.var "missing") ctx0 5 rfl (by norm_num)

/-- **C2** (counterexample to the claim as stated): the text grammar does
not support `^`, `**` or `%`.  The lexer silently skips `^` and `%`, so
`"2 ^ 3"` parses as the literal 2 (trailing 3 ignored) and evaluates to 2,
not 8, and `"5 % 2"` evaluates to 5, not 1; `"2 ** 3"` lexes as two `*`
operators and is a parse error. -/
theorem c2_text_power_modulo_counterexample :
    ParseStringEval "2 ^ 3" ctx0 = .ok 2 ∧
    (Except.ok (2 : ℚ) : Except String ℚ) ≠ .ok 8 ∧
    ParseStringEval "5 % 2" ctx0 = .ok 5 ∧
    (Except.ok (5 : ℚ) : Except String ℚ) ≠ .ok 1 ∧
    ParseStringEval "2 ** 3" ctx0 = .error "unexpected operator: *" := by
  refine ⟨by with_unfolding_all rfl, ?_, by with_unfolding_all rfl, ?_, rfl⟩
  · intro h
    injection h with h
    norm_num at h
  · intro h
    injection h with h
    norm_num at h

/-- **C2** (amended): the textual operators actually supported are
`+ - * / > < >= <= = != ( ) ,`; power and modulo exist only at the
Operation-node level (reachable through the tree-construction boundary),
where `^` and `**` both compute a power and `%` a modulo.  In the text
grammar `^` and `%` are skipped by the lexer and `**` is a parse error. -/
theorem c2_operator_support :
    Evaluate (.operation "^" (.literal 2) (.literal 3)) ctx0 = .ok 8 ∧
    Evaluate (.operation "**" (.literal 2) (.literal 3)) ctx0 = .ok 8 ∧
    Evaluate (.operation "%" (.literal 5) (.literal 2)) ctx0 = .ok 1 ∧
    ParseStringEval "2 + 3 * 4" ctx0 = .ok 14 ∧
    ParseStringEval "(2 + 3) * 4" ctx0 = .ok 20 ∧
    ParseStringEval "2 - 3" ctx0 = .ok (-1) ∧
    ParseStringEval "6 / 3" ctx0 = .ok 2 ∧
    ParseStringEval "5 > 3" ctx0 = .ok 1 ∧
    ParseStringEval "3 < 5" ctx0 = .ok 1 ∧
    ParseStringEval "5 >= 5" ctx0 = .ok 1 ∧
    ParseStringEval "5 <= 4" ctx0 = .ok 0 ∧
    ParseStringEval "5 = 5" ctx0 = .ok 1 ∧
    ParseStringEval "5 != 4" ctx0 = .ok 1 ∧
    ParseStringEval "2 ^ 3" ctx0 = .ok 2 ∧
    ParseStringEval "5 % 2" ctx0 = .ok 5 ∧
    ParseStringEval "2 ** 3" ctx0 = .error "unexpected operator: *" := by
  refine ⟨?_, ?_, ?_, ?_, ?_, ?_, ?_, ?_, ?_, ?_, ?_, ?_, ?_, ?_, ?_, ?_⟩ <;>
    with_unfolding_all rfl

/-- **C3** (counterexample to the claim as stated): `"1 % 0"` does not
fail with a modulo-by-zero error — the lexer skips `%`, the parser sees
the complete expression `1` (trailing `0` ignored), and evaluation
succeeds with 1. -/
theorem c3_text_modulo_zero_counterexample :
    ParseStringEval "1 % 0" ctx0 = .ok 1 := by with_unfolding_all rfl

/-- **C3** (amended): `"1 / 0"` fails with the division-by-zero error and
never returns a number; `"1 % 0"` instead parses as the literal 1 and
evaluates to 1, because `%` never reaches the AST from text.  At the AST
level, an Operation node with operator `/` or `%` whose operands evaluate
successfully returns an error exactly when the right value is 0. -/
theorem c3_division_modulo_by_zero :
    ParseStringEval "1 / 0" ctx0 = .error "division by zero" ∧
    ParseStringEval "1 % 0" ctx0 = .ok 1 ∧
    (∀ (l r : ASTNode) (ctx : Context) (lv rv : ℚ),
      Evaluate l ctx = .ok lv → Evaluate r ctx = .ok rv →
      (Evaluate (.operation "/" l r) ctx =
        if rv = 0 then .error "division by zero" else .ok (lv / rv)) ∧
      (Evaluate (.operation "%" l r) ctx =
        if rv = 0 then .error "modulo by zero" else .ok (goMod lv rv))) := by
  refine ⟨by with_unfolding_all rfl, by with_unfolding_all rfl, ?_⟩
  intro l r ctx lv rv hl hr
  constructor
  · simp only [Evaluate, hl, hr]
    simp
  · simp only [Evaluate, hl, hr]
    simp

/-- Witness for C3: the division law applied at `1 / 0`. -/
theorem c3_witness :
    Evaluate (.operation "/" (.literal 1) (.literal 0)) ctx0 = .error "division by zero" := by
  have h := (c3_division_modulo_by_zero.2.2 (.literal 1) (.literal 0) ctx0 1 0 rfl rfl).1
  simpa using h

/-- **C4**: the Russian and the English conditional formulas parse to the
same AST (hence evaluate identically on every context), keyword
recognition ignores the original casing, and with `A = 5` both formulas
evaluate to 2. -/
theorem c4_bilingual_equivalence :
    ParseString "ЕСЛИ A > 1 ТОГДА 2 ИНАЧЕ 3" = .ok c4AST ∧
    ParseString "IF A > 1 THEN 2 ELSE 3" = .ok c4AST ∧
    ParseString "iF A > 1 tHeN 2 eLsE 3" = .ok c4AST ∧
    ParseString "если A > 1 тогда 2 иначе 3" = .ok c4AST ∧
    (∀ ctx : Context, ParseStringEval "ЕСЛИ A > 1 ТОГДА 2 ИНАЧЕ 3" ctx =
      ParseStringEval "IF A > 1 THEN 2 ELSE 3" ctx) ∧
    ParseStringEval "ЕСЛИ A > 1 ТОГДА 2 ИНАЧЕ 3" ⟨[("A", 5)], []⟩ = .ok 2 ∧
    ParseStringEval "IF A > 1 THEN 2 ELSE 3" ⟨[("A", 5)], []⟩ = .ok 2 := by
  refine ⟨?_, ?_, ?_, ?_, fun _ => ?_, ?_, ?_⟩ <;> with_unfolding_all rfl

/-- Witness for C4: the every-context equivalence at a concrete context. -/
theorem c4_witness :
    ParseStringEval "ЕСЛИ A > 1 ТОГДА 2 ИНАЧЕ 3" ⟨[("A", 0)], []⟩ =
      ParseStringEval "IF A > 1 THEN 2 ELSE 3" ⟨[("A", 0)], []⟩ :=
  c4_bilingual_equivalence.2.2.2.2.1 ⟨[("A", 0)], []⟩

/-- **C5**: chained comparisons associate left — `"A>B>C"` parses as
`(A>B)>C` — and `"5 > 3 > 1"` evaluates to exactly 0 in every context,
because `(5>3) = 1` and then `1 > 1` is false. -/
theorem c5_chained_comparison :
    ParseString "A>B>C" =
      .ok (.comparison ">" (.comparison ">" (.var "A") (.var "B")) (.var "C")) ∧
    (∀ ctx : Context, ParseStringEval "5 > 3 > 1" ctx = .ok 0) := by
  refine ⟨?_, fun _ => ?_⟩ <;> with_unfolding_all rfl

/-- Witness for C5: the chained comparison evaluated in the empty context. -/
theorem c5_witness : ParseStringEval "5 > 3 > 1" ctx0 = .ok 0 :=
  c5_chained_comparison.2 ctx0

/-- **C6**: a Conditional node with no Else branch returns 0 when its
condition evaluates to 0 and the Then value on any nonzero condition —
but the formula text `"IF(0 > 1, 5)"` does not evaluate to 0: `IF` lexes
as the keyword token, the statement-form parser rejects the parenthesized
comma list, and parsing fails (the function-form `parseIfFunction` is
unreachable dead code).  The else-less conditional is reachable from text
as `"IF 0 > 1 THEN 5"`, which does evaluate to 0. -/
theorem c6_conditional_without_else :
    (∀ (cond thenB : ASTNode) (ctx : Context), Evaluate cond ctx = .ok 0 →
      Evaluate (.conditional cond thenB none) ctx = .ok 0) ∧
    (∀ (cond thenB : ASTNode) (elseB : Option ASTNode) (ctx : Context) (v : ℚ),
      Evaluate cond ctx = .ok v → v ≠ 0 →
      Evaluate (.conditional cond thenB elseB) ctx = Evaluate thenB ctx) ∧
    ParseString "IF(0 > 1, 5)" =
      .error ("error parsing IF condition: expected " ++ sq ++ ")" ++ sq ++ " but got ,") ∧
    ParseStringEval "IF 0 > 1 THEN 5" ctx0 = .ok 0 := by
  refine ⟨?_, ?_, rfl, by with_unfolding_all rfl⟩
  · intro cond thenB ctx h
    simp only [Evaluate, h]
    with_unfolding_all rfl
  · intro cond thenB elseB ctx v h hv
    cases elseB <;> simp only [Evaluate, h] <;> simp [hv]

/-- Witness for C6: the else-less conditional law at a concrete input. -/
theorem c6_witness :
    Evaluate (.conditional (.literal 0) (.literal 5) none) ctx0 = .ok 0 :=
  c6_conditional_without_else.1 (.literal 0) (.literal 5) ctx0 rfl

/-- **C7**: a Variable node evaluates to the value bound to its exact name
when the context contains it, and to the variable-not-found error (never a
default value) when it does not. -/
theorem c7_variable_lookup :
    (∀ (name : String) (ctx : Context) (v : ℚ), ctx.Variables.lookup name = some v →
      Evaluate (.var name) ctx = .ok v) ∧
    (∀ (name : String) (ctx : Context), ctx.Variables.lookup name = none →
      Evaluate (.var name) ctx =
        .error ("variable " ++ sq ++ name ++ sq ++ " not found entity not found")) := by
  constructor
  · intro name ctx v h
    simp only [Evaluate, h]
  · intro name ctx h
    simp only [Evaluate, h]

/-- Witness for C7: both lookup outcomes at concrete inputs. -/
theorem c7_witness :
    Evaluate (.var "A") ⟨[("A", 7)], []⟩ = .ok 7 ∧
    Evaluate (.var "B") ctx0 =
      .error ("variable " ++ sq ++ "B" ++ sq ++ " not found entity not found") :=
  ⟨c7_variable_lookup.1 "A" ⟨[("A", 7)], []⟩ 7 rfl, c7_variable_lookup.2 "B" ctx0 rfl⟩

/-- **C8**: the top-level `Parse` returns whatever AST `parseExpression`
produced, whatever tokens remain unconsumed — trailing tokens after a
complete leading expression are silently ignored, never rejected. -/
theorem c8_parse_ignores_trailing (input : String) (ast : ASTNode) (st : ParserState)
    (h : parseExpressionF (parseFuel (NewParserState input).runes) (NewParserState input) =
      .ok (ast, st)) :
    Parse (NewParserState input) = .ok ast := by
  unfold Parse
  rw [h]
  rfl

/-- Witness for C8: `"(1)2"` parses to the literal 1 although a non-EOF
number token `2` follows the complete expression `(1)`. -/
theorem c8_witness :
    Parse (NewParserState "(1)2") = .ok (.literal 1) ∧
    parseExpressionF (parseFuel (NewParserState "(1)2").runes) (NewParserState "(1)2") =
      .ok (.literal 1, ⟨['(', '1', ')', '2'], 4, ⟨.number, "2", 3⟩⟩) ∧
    (⟨TokenType.number, "2", 3⟩ : Token).type ≠ .eof :=
  ⟨c8_parse_ignores_trailing "(1)2" (.literal 1) ⟨['(', '1', ')', '2'], 4, ⟨.number, "2", 3⟩⟩
    (by with_unfolding_all rfl), by with_unfolding_all rfl, by decide⟩

/-- **C9**: on a formula with both an invalid character and a parenthesis
imbalance, `ValidateFormula` is invalid and reports both an
`INVALID_CHARACTER` and a parenthesis diagnostic (the independent stages
all run), while the gated tokenize+parse stage contributes no
`SYNTAX_ERROR` because an earlier stage already failed. -/
theorem c9_validator_exhaustive (formula : String)
    (h1 : ∃ c ∈ formula.data, isValidCharacter c = false)
    (h2 : validateParentheses formula ≠ none) :
    (ValidateFormula formula).IsValid = false ∧
    (∃ e ∈ (ValidateFormula formula).Errors, e.Code = "INVALID_CHARACTER") ∧
    (∃ e ∈ (ValidateFormula formula).Errors, e.Code = "EXTRA_CLOSING_PAREN" ∨
      e.Code = "MISSING_CLOSING_PAREN") ∧
    (∀ e ∈ (ValidateFormula formula).Errors, e.Code ≠ "SYNTAX_ERROR") := by
  obtain ⟨c, hc, hcv⟩ := h1
  obtain ⟨ec, hec, heccode⟩ := validateCharsAux_mem formula.data 0 c hc hcv
  have hec' : ec ∈ validateCharacters formula := hec
  have hne : validateCharacters formula ≠ [] := by
    intro h0
    rw [h0] at hec'
    exact absurd hec' (List.not_mem_nil ec)
  obtain ⟨hvalid, herrs⟩ := ValidateFormula_gate formula hne
  obtain ⟨ep, hep⟩ : ∃ ep, validateParentheses formula = some ep :=
    Option.ne_none_iff_exists'.mp h2
  refine ⟨hvalid, ?_, ?_, ?_⟩
  · refine ⟨ec, ?_, heccode⟩
    rw [herrs]
    simp only [List.mem_append]
    exact Or.inl (Or.inl (Or.inl (Or.inr hec')))
  · refine ⟨ep, ?_, parenAux_codes formula.data 0 0 ep hep⟩
    rw [herrs]
    simp only [List.mem_append]
    refine Or.inl (Or.inr ?_)
    rw [hep]
    exact List.mem_singleton.mpr rfl
  · intro e he
    rw [herrs] at he
    simp only [List.mem_append] at he
    rcases he with ((((h | h) | h) | h) | h)
    · rcases hb : validateBasicStructure formula with _ | eb
      · rw [hb] at h
        simp at h
      · rw [hb] at h
        simp only [Option.toList_some, List.mem_singleton] at h
        subst h
        rcases validateBasicStructure_codes formula e hb with hcode | hcode <;>
          rw [hcode] <;> decide
    · rw [validateCharsAux_codes formula.data 0 e h]
      decide
    · rw [validateCyrillicUsage_codes formula e h]
      decide
    · rcases hp : validateParentheses formula with _ | ep'
      · rw [hp] at h
        simp at h
      · rw [hp] at h
        simp only [Option.toList_some, List.mem_singleton] at h
        subst h
        rcases parenAux_codes formula.data 0 0 e hp with hcode | hcode <;>
          rw [hcode] <;> decide
    · rcases List.mem_append.mp h with h | h
      · rw [opRunsAux_codes (formula.data.length + 1) formula.data 0 e h]
        decide
      · rw [endsWithOpErrors_codes formula e h]
        decide

/-- Witness for C9: the formula `"@(("` has the invalid character `@` and
two unclosed parentheses. -/
theorem c9_witness :
    (ValidateFormula "@((").IsValid = false ∧
    (∃ e ∈ (ValidateFormula "@((").Errors, e.Code = "INVALID_CHARACTER") ∧
    (∃ e ∈ (ValidateFormula "@((").Errors, e.Code = "EXTRA_CLOSING_PAREN" ∨
      e.Code = "MISSING_CLOSING_PAREN") ∧
    (∀ e ∈ (ValidateFormula "@((").Errors, e.Code ≠ "SYNTAX_ERROR") :=
  c9_validator_exhaustive "@((" ⟨'@', by decide, by decide⟩ (by decide)

/-- **C10**: the preprocessing deletes every space of a run of two or more
between two letter runs (each space in the run has a space neighbour, and
a space survives only between letter/letter, letter/digit or digit/letter
neighbours), so the two runs fuse: `"A  B"` tokenizes as the single
variable `AB`, while `"A B"` with a single space stays two variables. -/
theorem c10_space_normalization :
    (∀ (A B : List Char) (n : ℕ), 2 ≤ n → A ≠ [] → B ≠ [] →
      (∀ c ∈ A, goIsLetter c = true) → (∀ c ∈ B, goIsLetter c = true) →
      normalizeSpaces ⟨A ++ List.replicate n ' ' ++ B⟩ = ⟨A ++ B⟩) ∧
    tokenizeAll "A  B" = [⟨.var, "AB", 0⟩] ∧
    tokenizeAll "A B" = [⟨.var, "A", 0⟩, ⟨.var, "B", 2⟩] := by
  refine ⟨?_, rfl, rfl⟩
  intro A B n hn hA hB hAl hBl
  have hT : ∀ p : Char, normalizeSpacesAux (some p) (List.replicate n ' ' ++ B) = B := by
    intro p
    have hsplit : List.replicate n ' ' ++ B = ' ' :: (List.replicate (n - 1) ' ' ++ B) := by
      cases n with
      | zero => omega
      | succ k => simp [List.replicate_succ]
    rw [hsplit]
    exact normalizeSpacesAux_space_run_after p (n - 1) B (by omega) hBl
  show (⟨normalizeSpacesAux none (A ++ List.replicate n ' ' ++ B)⟩ : String) = ⟨A ++ B⟩
  rw [List.append_assoc, normalizeSpacesAux_letters_cont A _ B hAl hT none hA]

/-- Witness for C10: the two-space fusion at the concrete input `A  B`. -/
theorem c10_witness :
    normalizeSpaces ⟨['A'] ++ List.replicate 2 ' ' ++ ['B']⟩ = ⟨['A'] ++ ['B']⟩ :=
  c10_space_normalization.1 ['A'] ['B'] 2 (by norm_num) (by decide) (by decide)
    (by decide) (by decide)

end Formula
